import Mathlib

/-!
Shallow embedding of `src/music-collab-backend/src/lib.rs` (Dexilo), the
record store and marketplace transaction engine of a collaborative-music
canister.

Modelling conventions:
* Rust `u64`/`u8` values are modelled as `Nat`; `String` as Lean `String`.
* The `thread_local!` stores (`PROJECTS`, `NFTS`, `TRANSACTIONS`,
  `ROYALTY_PAYMENTS`, `NEXT_ID`, `NEXT_NFT_ID`) form one explicit state
  record, `CanisterState`, threaded through every operation.
* A `HashMap<u64, T>` is modelled as an association list `List (Nat × T)`
  with first-match lookup; no claim depends on iteration order.
* `ic_cdk::api::time()` is an external input, passed as an explicit
  `timestamp` argument to the operations that call it.
* Rust `Result<String, String>` is modelled by `RustResult` below.
-/

set_option autoImplicit false

namespace Dexilo

/-- `Track` struct of the source. `ipfs_hash` is the opaque content hash. -/
structure Track where
  id : Nat
  name : String
  ipfs_hash : String
  uploaded_by : String
  timestamp : Nat
  deriving DecidableEq, Repr

/-- `MusicProject` struct of the source. -/
structure MusicProject where
  id : Nat
  title : String
  description : String
  owner : String
  contributors : List String
  tracks : List Track
  deriving DecidableEq, Repr

/-- `Transaction` struct of the source; `transaction_type` is one of
"mint", "sale", "transfer". `from_` renders Rust's `from` field. -/
structure Transaction where
  from_ : String
  to_ : String
  price : Nat
  timestamp : Nat
  transaction_type : String
  deriving DecidableEq, Repr

/-- `NFTMetadata` struct of the source. -/
structure NFTMetadata where
  id : Nat
  name : String
  description : String
  image_url : String
  creator : String
  current_owner : String
  project_id : Nat
  price : Nat
  is_for_sale : Bool
  royalty_percentage : Nat
  created_at : Nat
  view_count : Nat
  sale_history : List Transaction
  category : String
  deriving DecidableEq, Repr

/-- `RoyaltyPayment` struct of the source. -/
structure RoyaltyPayment where
  recipient : String
  amount : Nat
  nft_id : Nat
  transaction_id : String
  deriving DecidableEq, Repr

/-- Rust's `Result<String, String>` as returned by `buy_nft`,
`update_nft_price` and `set_nft_for_sale`. -/
inductive RustResult where
  | Ok (msg : String)
  | Err (e : String)
  deriving DecidableEq, Repr

/-- First-match lookup in an association list, modelling `HashMap::get`. -/
def mapLookup {α : Type} : List (Nat × α) → Nat → Option α
  | [], _ => none
  | (k', v) :: rest, k => if k' = k then some v else mapLookup rest k

/-- Insert-or-replace, modelling `HashMap::insert`. -/
def mapInsert {α : Type} : List (Nat × α) → Nat → α → List (Nat × α)
  | [], k, v => [(k, v)]
  | (k', v') :: rest, k, v =>
      if k' = k then (k, v) :: rest else (k', v') :: mapInsert rest k v

/-- In-place update of the entry at a key, if present: models the
`HashMap::get_mut` + mutate pattern. Entries at other keys are untouched. -/
def mapModify {α : Type} : List (Nat × α) → Nat → (α → α) → List (Nat × α)
  | [], _, _ => []
  | (k', v') :: rest, k, f =>
      if k' = k then (k', f v') :: rest else (k', v') :: mapModify rest k f

/-- The whole mutable state of the canister: the four stores/logs and the
two ID counters of the `thread_local!` block. -/
structure CanisterState where
  projects : List (Nat × MusicProject)
  nfts : List (Nat × NFTMetadata)
  transactions : List Transaction
  royaltyPayments : List RoyaltyPayment
  nextId : Nat
  nextNftId : Nat
  deriving DecidableEq, Repr

/-- Initial state: empty stores, both counters at 1. -/
def initState : CanisterState :=
  { projects := [], nfts := [], transactions := [], royaltyPayments := [],
    nextId := 1, nextNftId := 1 }

/-- `create_project`: allocates `NEXT_ID`, inserts a fresh project with no
contributors and no tracks, returns the id. -/
def create_project (s : CanisterState) (title description owner : String) :
    Nat × CanisterState :=
  let id := s.nextId
  let project : MusicProject :=
    { id, title, description, owner, contributors := [], tracks := [] }
  (id, { s with nextId := s.nextId + 1,
                projects := mapInsert s.projects id project })

/-- `add_track`: fails (`false`) if the project is unknown; otherwise pushes
a `Track` whose id is the caller-supplied `timestamp`. -/
def add_track (s : CanisterState) (project_id : Nat)
    (name ipfs_hash uploaded_by : String) (timestamp : Nat) :
    Bool × CanisterState :=
  match mapLookup s.projects project_id with
  | some _ =>
      let track_id := timestamp
      let track : Track := { id := track_id, name, ipfs_hash, uploaded_by, timestamp }
      (true, { s with projects := mapModify s.projects project_id (fun p =>
        { p with tracks := p.tracks ++ [track] }) })
  | none => (false, s)

/-- `add_contributor`: fails if the project is unknown; otherwise appends the
contributor unless already present, and returns `true` either way. -/
def add_contributor (s : CanisterState) (project_id : Nat) (contributor : String) :
    Bool × CanisterState :=
  match mapLookup s.projects project_id with
  | some _ =>
      (true, { s with projects := mapModify s.projects project_id (fun p =>
        if contributor ∈ p.contributors then p
        else { p with contributors := p.contributors ++ [contributor] }) })
  | none => (false, s)

/-- `remove_track`: fails if the project is unknown; otherwise retains only
the tracks whose id differs from `track_id` and returns `true`. -/
def remove_track (s : CanisterState) (project_id track_id : Nat) :
    Bool × CanisterState :=
  match mapLookup s.projects project_id with
  | some _ =>
      (true, { s with projects := mapModify s.projects project_id (fun p =>
        { p with tracks := p.tracks.filter (fun t => t.id ≠ track_id) }) })
  | none => (false, s)

/-- `get_project`: read-only lookup. -/
def get_project (s : CanisterState) (project_id : Nat) : Option MusicProject :=
  mapLookup s.projects project_id

/-- `get_project_tracks`: read-only; empty list if the project is unknown. -/
def get_project_tracks (s : CanisterState) (project_id : Nat) : List Track :=
  match mapLookup s.projects project_id with
  | some p => p.tracks
  | none => []

/-- `mint_nft`: allocates `NEXT_NFT_ID`, builds the mint transaction
(`from = "system"`, `to = creator`, `price = 0`, kind `"mint"`), inserts the
NFT (owner = creator, `is_for_sale = true`, royalty 10, history = the mint
transaction alone) and pushes the mint transaction onto the global log. -/
def mint_nft (s : CanisterState) (name description image_url creator : String)
    (project_id price : Nat) (category : String) (timestamp : Nat) :
    Nat × CanisterState :=
  let id := s.nextNftId
  let mint_transaction : Transaction :=
    { from_ := "system", to_ := creator, price := 0, timestamp,
      transaction_type := "mint" }
  let nft : NFTMetadata :=
    { id, name, description, image_url, creator, current_owner := creator,
      project_id, price, is_for_sale := true, royalty_percentage := 10,
      created_at := timestamp, view_count := 0,
      sale_history := [mint_transaction], category }
  (id, { s with nextNftId := s.nextNftId + 1,
                nfts := mapInsert s.nfts id nft,
                transactions := s.transactions ++ [mint_transaction] })

/-- `list_nfts`: clones all records; the state is only borrowed, never
mutated, so it is returned unchanged. -/
def list_nfts (s : CanisterState) : List NFTMetadata × CanisterState :=
  (s.nfts.map Prod.snd, s)

/-- `view_count` bump performed by a successful `get_nft`. -/
def incView (n : NFTMetadata) : NFTMetadata :=
  { n with view_count := n.view_count + 1 }

/-- `get_nft`: side-effecting read; on a hit it increments the record's
`view_count` and returns the updated record, on a miss it returns `none`. -/
def get_nft (s : CanisterState) (nft_id : Nat) :
    Option NFTMetadata × CanisterState :=
  match mapLookup s.nfts nft_id with
  | some nft => (some (incView nft), { s with nfts := mapModify s.nfts nft_id incView })
  | none => (none, s)

/-- Royalty computed by `buy_nft`: `(sale_price * royalty_percentage) / 100`
when the creator is not the seller (the current owner), else 0. -/
def royaltyAmount (nft : NFTMetadata) : Nat :=
  if nft.creator ≠ nft.current_owner then
    nft.price * nft.royalty_percentage / 100
  else 0

/-- Seller's share computed by `buy_nft`: `sale_price - royalty_amount`. -/
def sellerAmount (nft : NFTMetadata) : Nat :=
  nft.price - royaltyAmount nft

/-- The sale transaction `buy_nft` builds on success. -/
def saleTransaction (nft : NFTMetadata) (buyer : String) (timestamp : Nat) :
    Transaction :=
  { from_ := nft.current_owner, to_ := buyer, price := nft.price, timestamp,
    transaction_type := "sale" }

/-- Success message of `buy_nft`. -/
def buyMessage (nft : NFTMetadata) : String :=
  "NFT purchased successfully. Seller receives: " ++ toString (sellerAmount nft)
    ++ " ICP, Creator royalty: " ++ toString (royaltyAmount nft) ++ " ICP"

/-- `buy_nft`: validation (`NotFound`, `NotForSale`, `SelfPurchase` in the
source's order), then in one atomic step: append the sale transaction to the
NFT's history and the global log, transfer ownership to the buyer, and, when
the royalty is positive, record a `RoyaltyPayment` to the creator. -/
def buy_nft (s : CanisterState) (nft_id : Nat) (buyer : String)
    (timestamp : Nat) : RustResult × CanisterState :=
  match mapLookup s.nfts nft_id with
  | none => (.Err "NFT not found", s)
  | some nft =>
      if nft.is_for_sale = false then (.Err "NFT is not for sale", s)
      else if nft.current_owner = buyer then (.Err "Cannot buy your own NFT", s)
      else
        let royalty_amount := royaltyAmount nft
        let sale_transaction := saleTransaction nft buyer timestamp
        let royalty_payment : RoyaltyPayment :=
          { recipient := nft.creator, amount := royalty_amount, nft_id,
            transaction_id := toString nft_id ++ "_" ++ toString timestamp }
        (.Ok (buyMessage nft),
         { s with
             nfts := mapModify s.nfts nft_id (fun n =>
               { n with current_owner := buyer,
                        sale_history := n.sale_history ++ [sale_transaction] }),
             transactions := s.transactions ++ [sale_transaction],
             royaltyPayments :=
               if royalty_amount > 0 then s.royaltyPayments ++ [royalty_payment]
               else s.royaltyPayments })

/-- `update_nft_price`: `NotFound` if unknown, `NotOwner` if the requester is
not the current owner; otherwise sets the price. -/
def update_nft_price (s : CanisterState) (nft_id new_price : Nat)
    (owner : String) : RustResult × CanisterState :=
  match mapLookup s.nfts nft_id with
  | none => (.Err "NFT not found", s)
  | some nft =>
      if nft.current_owner ≠ owner then
        (.Err "Only the owner can update the price", s)
      else
        (.Ok ("Price updated from " ++ toString nft.price ++ " to "
              ++ toString new_price ++ " ICP"),
         { s with nfts := mapModify s.nfts nft_id (fun n =>
             { n with price := new_price }) })

/-- `set_nft_for_sale`: `NotFound` if unknown, `NotOwner` if the requester is
not the current owner; otherwise sets the `is_for_sale` flag. -/
def set_nft_for_sale (s : CanisterState) (nft_id : Nat) (for_sale : Bool)
    (owner : String) : RustResult × CanisterState :=
  match mapLookup s.nfts nft_id with
  | none => (.Err "NFT not found", s)
  | some nft =>
      if nft.current_owner ≠ owner then
        (.Err "Only the owner can change sale status", s)
      else
        (.Ok (if for_sale then "NFT is now for sale"
              else "NFT removed from sale"),
         { s with nfts := mapModify s.nfts nft_id (fun n =>
             { n with is_for_sale := for_sale }) })

/-- One decoded request against the canister: every exported method that can
touch the state, with `ic_cdk::api::time()` as an explicit argument. -/
inductive Op where
  | createProject (title description owner : String)
  | addTrack (project_id : Nat) (name ipfs_hash uploaded_by : String) (timestamp : Nat)
  | addContributor (project_id : Nat) (contributor : String)
  | removeTrack (project_id track_id : Nat)
  | mintNft (name description image_url creator : String)
      (project_id price : Nat) (category : String) (timestamp : Nat)
  | listNfts
  | getNft (nft_id : Nat)
  | buyNft (nft_id : Nat) (buyer : String) (timestamp : Nat)
  | updatePrice (nft_id new_price : Nat) (owner : String)
  | setForSale (nft_id : Nat) (for_sale : Bool) (owner : String)
  deriving DecidableEq, Repr

/-- State after executing one operation. -/
def step (s : CanisterState) : Op → CanisterState
  | .createProject t d o => (create_project s t d o).2
  | .addTrack pid nm h ub ts => (add_track s pid nm h ub ts).2
  | .addContributor pid c => (add_contributor s pid c).2
  | .removeTrack pid tid => (remove_track s pid tid).2
  | .mintNft nm d url cr pid pr cat ts => (mint_nft s nm d url cr pid pr cat ts).2
  | .listNfts => (list_nfts s).2
  | .getNft id => (get_nft s id).2
  | .buyNft id b ts => (buy_nft s id b ts).2
  | .updatePrice id p o => (update_nft_price s id p o).2
  | .setForSale id f o => (set_nft_for_sale s id f o).2

/-- States reachable from the fresh canister by any sequence of calls. -/
inductive Reachable : CanisterState → Prop
  | init : Reachable initState
  | step {s : CanisterState} (h : Reachable s) (op : Op) : Reachable (step s op)

/-! ### Association-list lemmas -/

theorem mapLookup_mapInsert {α : Type} (m : List (Nat × α)) (k k' : Nat) (v : α) :
    mapLookup (mapInsert m k v) k' = if k = k' then some v else mapLookup m k' := by
  induction m with
  | nil => simp [mapInsert, mapLookup]
  | cons hd tl ih =>
      obtain ⟨kh, vh⟩ := hd
      by_cases h1 : kh = k
      · subst h1
        by_cases h2 : kh = k' <;> simp [mapInsert, mapLookup, h2]
      · by_cases h2 : kh = k'
        · subst h2
          have : k ≠ kh := fun h => h1 h.symm
          simp [mapInsert, mapLookup, h1, this]
        · simp [mapInsert, mapLookup, h1, h2, ih]

theorem mapLookup_mapModify {α : Type} (m : List (Nat × α)) (k k' : Nat) (f : α → α) :
    mapLookup (mapModify m k f) k' =
      if k = k' then (mapLookup m k').map f else mapLookup m k' := by
  induction m with
  | nil => simp [mapModify, mapLookup]
  | cons hd tl ih =>
      obtain ⟨kh, vh⟩ := hd
      by_cases h1 : kh = k
      · subst h1
        by_cases h2 : kh = k' <;> simp [mapModify, mapLookup, h2, ih]
      · by_cases h2 : kh = k'
        · subst h2
          have : k ≠ kh := fun h => h1 h.symm
          simp [mapModify, mapLookup, h1, this]
        · simp [mapModify, mapLookup, h1, h2, ih]

theorem head?_append_left {α : Type} (l l' : List α) (h : l ≠ []) :
    (l ++ l').head? = l.head? := by
  cases l with
  | nil => exact absurd rfl h
  | cons a t => rfl

/-! ### The reachable-state invariant -/

/-- Record-level invariant of every stored NFT: royalty fixed at 10 by mint,
non-empty history whose head is the mint transaction and whose last entry's
`to` field is the current owner. -/
def NftInv (nft : NFTMetadata) : Prop :=
  nft.royalty_percentage = 10 ∧
  nft.sale_history ≠ [] ∧
  (∀ t, nft.sale_history.head? = some t →
    t.from_ = "system" ∧ t.price = 0 ∧ t.transaction_type = "mint") ∧
  (∀ t, nft.sale_history.getLast? = some t → nft.current_owner = t.to_)

/-- Global state invariant: counters at least 1, every stored key issued by
its own counter (hence below it), and every stored NFT satisfies `NftInv`. -/
def StateInv (s : CanisterState) : Prop :=
  1 ≤ s.nextId ∧ 1 ≤ s.nextNftId ∧
  (∀ k p, mapLookup s.projects k = some p → 1 ≤ k ∧ k < s.nextId) ∧
  (∀ k n, mapLookup s.nfts k = some n → (1 ≤ k ∧ k < s.nextNftId) ∧ NftInv n)

theorem stateInv_init : StateInv initState := by
  refine ⟨le_refl 1, le_refl 1, ?_, ?_⟩ <;> intro k x hx <;> simp [initState, mapLookup] at hx

theorem nftInv_incView (n : NFTMetadata) (h : NftInv n) : NftInv (incView n) := by
  obtain ⟨h1, h2, h3, h4⟩ := h
  exact ⟨h1, h2, h3, h4⟩

theorem nftInv_setPrice (n : NFTMetadata) (p : Nat) (h : NftInv n) :
    NftInv { n with price := p } := by
  obtain ⟨h1, h2, h3, h4⟩ := h
  exact ⟨h1, h2, h3, h4⟩

theorem nftInv_setFlag (n : NFTMetadata) (b : Bool) (h : NftInv n) :
    NftInv { n with is_for_sale := b } := by
  obtain ⟨h1, h2, h3, h4⟩ := h
  exact ⟨h1, h2, h3, h4⟩

theorem nftInv_sale (n nft : NFTMetadata) (buyer : String) (ts : Nat)
    (h : NftInv n) :
    NftInv { n with current_owner := buyer,
                    sale_history := n.sale_history ++ [saleTransaction nft buyer ts] } := by
  obtain ⟨h1, h2, h3, h4⟩ := h
  refine ⟨h1, by simp, ?_, ?_⟩
  · intro t ht
    have ht' : (n.sale_history ++ [saleTransaction nft buyer ts]).head? = some t := ht
    rw [head?_append_left _ _ h2] at ht'
    exact h3 t ht'
  · intro t ht
    have ht' : (n.sale_history ++ [saleTransaction nft buyer ts]).getLast? = some t := ht
    rw [List.getLast?_concat] at ht'
    cases ht'
    rfl

theorem nftInv_mint (name description image_url creator : String)
    (project_id price : Nat) (category : String) (timestamp : Nat) (id : Nat) :
    NftInv { id, name, description, image_url, creator, current_owner := creator,
             project_id, price, is_for_sale := true, royalty_percentage := 10,
             created_at := timestamp, view_count := 0,
             sale_history := [{ from_ := "system", to_ := creator, price := 0,
                                timestamp, transaction_type := "mint" }],
             category } := by
  refine ⟨rfl, by simp, ?_, ?_⟩
  · intro t ht
    simp only [List.head?] at ht
    cases ht
    exact ⟨rfl, rfl, rfl⟩
  · intro t ht
    simp only [List.getLast?] at ht
    cases ht
    rfl

theorem mapPred_modify {α : Type} (m : List (Nat × α)) (j : Nat) (f : α → α)
    (P : Nat → α → Prop) (hf : ∀ k a, P k a → P k (f a))
    (hm : ∀ k a, mapLookup m k = some a → P k a) :
    ∀ k a, mapLookup (mapModify m j f) k = some a → P k a := by
  intro k a hk
  rw [mapLookup_mapModify] at hk
  by_cases e : j = k
  · rw [if_pos e] at hk
    obtain ⟨b, hb, hfb⟩ := Option.map_eq_some'.mp hk
    exact hfb ▸ hf k b (hm k b hb)
  · rw [if_neg e] at hk
    exact hm k a hk

theorem mapPred_insert {α : Type} (m : List (Nat × α)) (j : Nat) (v : α)
    (P : Nat → α → Prop) (hv : P j v)
    (hm : ∀ k a, mapLookup m k = some a → P k a) :
    ∀ k a, mapLookup (mapInsert m j v) k = some a → P k a := by
  intro k a hk
  rw [mapLookup_mapInsert] at hk
  by_cases e : j = k
  · rw [if_pos e] at hk
    cases hk
    exact e ▸ hv
  · rw [if_neg e] at hk
    exact hm k a hk

/-- Every operation preserves the global state invariant. -/
theorem stateInv_step (s : CanisterState) (op : Op) (h : StateInv s) :
    StateInv (step s op) := by
  obtain ⟨hA, hB, hP, hN⟩ := h
  cases op with
  | createProject t d o =>
      simp only [step, create_project]
      exact ⟨Nat.le_succ_of_le hA, hB,
        mapPred_insert _ _ _ (fun k _ => 1 ≤ k ∧ k < s.nextId + 1)
          ⟨hA, Nat.lt_succ_self _⟩
          (fun k p hk => ⟨(hP k p hk).1, Nat.lt_succ_of_lt (hP k p hk).2⟩),
        hN⟩
  | addTrack pid nm ih ub ts =>
      cases hl : mapLookup s.projects pid with
      | none => simp only [step, add_track, hl]; exact ⟨hA, hB, hP, hN⟩
      | some p0 =>
          simp only [step, add_track, hl]
          exact ⟨hA, hB,
            mapPred_modify _ _ _ (fun k _ => 1 ≤ k ∧ k < s.nextId)
              (fun k a ha => ha) hP, hN⟩
  | addContributor pid c =>
      cases hl : mapLookup s.projects pid with
      | none => simp only [step, add_contributor, hl]; exact ⟨hA, hB, hP, hN⟩
      | some p0 =>
          simp only [step, add_contributor, hl]
          exact ⟨hA, hB,
            mapPred_modify _ _ _ (fun k _ => 1 ≤ k ∧ k < s.nextId)
              (fun k a ha => ha) hP, hN⟩
  | removeTrack pid tid =>
      cases hl : mapLookup s.projects pid with
      | none => simp only [step, remove_track, hl]; exact ⟨hA, hB, hP, hN⟩
      | some p0 =>
          simp only [step, remove_track, hl]
          exact ⟨hA, hB,
            mapPred_modify _ _ _ (fun k _ => 1 ≤ k ∧ k < s.nextId)
              (fun k a ha => ha) hP, hN⟩
  | mintNft nm d url cr pid pr cat ts =>
      simp only [step, mint_nft]
      exact ⟨hA, Nat.le_succ_of_le hB, hP,
        mapPred_insert _ _ _
          (fun k n => (1 ≤ k ∧ k < s.nextNftId + 1) ∧ NftInv n)
          ⟨⟨hB, Nat.lt_succ_self _⟩, nftInv_mint nm d url cr pid pr cat ts _⟩
          (fun k n hk =>
            ⟨⟨(hN k n hk).1.1, Nat.lt_succ_of_lt (hN k n hk).1.2⟩, (hN k n hk).2⟩)⟩
  | listNfts => exact ⟨hA, hB, hP, hN⟩
  | getNft id =>
      cases hl : mapLookup s.nfts id with
      | none => simp only [step, get_nft, hl]; exact ⟨hA, hB, hP, hN⟩
      | some n0 =>
          simp only [step, get_nft, hl]
          exact ⟨hA, hB, hP,
            mapPred_modify _ _ _
              (fun k n => (1 ≤ k ∧ k < s.nextNftId) ∧ NftInv n)
              (fun k n hn => ⟨hn.1, nftInv_incView n hn.2⟩) hN⟩
  | buyNft id b ts =>
      cases hl : mapLookup s.nfts id with
      | none => simp only [step, buy_nft, hl]; exact ⟨hA, hB, hP, hN⟩
      | some nft =>
          by_cases hsale : nft.is_for_sale = false
          · simp only [step, buy_nft, hl, if_pos hsale]
            exact ⟨hA, hB, hP, hN⟩
          · by_cases hself : nft.current_owner = b
            · simp only [step, buy_nft, hl, if_neg hsale, if_pos hself]
              exact ⟨hA, hB, hP, hN⟩
            · simp only [step, buy_nft, hl, if_neg hsale, if_neg hself]
              exact ⟨hA, hB, hP,
                mapPred_modify _ _ _
                  (fun k n => (1 ≤ k ∧ k < s.nextNftId) ∧ NftInv n)
                  (fun k n hn => ⟨hn.1, nftInv_sale n nft b ts hn.2⟩) hN⟩
  | updatePrice id p o =>
      cases hl : mapLookup s.nfts id with
      | none => simp only [step, update_nft_price, hl]; exact ⟨hA, hB, hP, hN⟩
      | some nft =>
          by_cases hown : nft.current_owner ≠ o
          · simp only [step, update_nft_price, hl, if_pos hown]
            exact ⟨hA, hB, hP, hN⟩
          · simp only [step, update_nft_price, hl, if_neg hown]
            exact ⟨hA, hB, hP,
              mapPred_modify _ _ _
                (fun k n => (1 ≤ k ∧ k < s.nextNftId) ∧ NftInv n)
                (fun k n hn => ⟨hn.1, nftInv_setPrice n p hn.2⟩) hN⟩
  | setForSale id f o =>
      cases hl : mapLookup s.nfts id with
      | none => simp only [step, set_nft_for_sale, hl]; exact ⟨hA, hB, hP, hN⟩
      | some nft =>
          by_cases hown : nft.current_owner ≠ o
          · simp only [step, set_nft_for_sale, hl, if_pos hown]
            exact ⟨hA, hB, hP, hN⟩
          · simp only [step, set_nft_for_sale, hl, if_neg hown]
            exact ⟨hA, hB, hP,
              mapPred_modify _ _ _
                (fun k n => (1 ≤ k ∧ k < s.nextNftId) ∧ NftInv n)
                (fun k n hn => ⟨hn.1, nftInv_setFlag n f hn.2⟩) hN⟩

/-- Every reachable state satisfies the invariant. -/
theorem reachable_stateInv {s : CanisterState} (h : Reachable s) : StateInv s := by
  induction h with
  | init => exact stateInv_init
  | step h op ih => exact stateInv_step _ op ih

/-! ### Concrete scenario states used to instantiate the theorems -/

/-- State after minting one NFT (id 1, price 100) by `"alice"`. -/
def sMint : CanisterState :=
  step initState (.mintNft "song" "desc" "img" "alice" 1 100 "music" 5)

/-- The NFT record stored in `sMint` under id 1. -/
def nftM : NFTMetadata :=
  { id := 1, name := "song", description := "desc", image_url := "img",
    creator := "alice", current_owner := "alice", project_id := 1, price := 100,
    is_for_sale := true, royalty_percentage := 10, created_at := 5,
    view_count := 0,
    sale_history := [{ from_ := "system", to_ := "alice", price := 0,
                       timestamp := 5, transaction_type := "mint" }],
    category := "music" }

/-- `sMint` with the NFT taken off sale by its owner. -/
def sOff : CanisterState := step sMint (.setForSale 1 false "alice")

/-- State after `"bob"` buys NFT 1 from `"alice"`. -/
def sBuy1 : CanisterState := step sMint (.buyNft 1 "bob" 7)

/-- The NFT record stored in `sBuy1` under id 1. -/
def nftB : NFTMetadata :=
  { nftM with current_owner := "bob",
              sale_history := nftM.sale_history ++
                [{ from_ := "alice", to_ := "bob", price := 100, timestamp := 7,
                   transaction_type := "sale" }] }

/-- State after creating one project (id 1). -/
def sProj : CanisterState := step initState (.createProject "proj" "d" "owner")

/-- `sProj` after adding two tracks that share the timestamp 42. -/
def sTracks : CanisterState :=
  step (step sProj (.addTrack 1 "t1" "h1" "u1" 42)) (.addTrack 1 "t2" "h2" "u2" 42)

/-- The project stored in `sTracks` under id 1: two tracks, both with id 42. -/
def pTwo : MusicProject :=
  { id := 1, title := "proj", description := "d", owner := "owner",
    contributors := [],
    tracks := [{ id := 42, name := "t1", ipfs_hash := "h1", uploaded_by := "u1",
                 timestamp := 42 },
               { id := 42, name := "t2", ipfs_hash := "h2", uploaded_by := "u2",
                 timestamp := 42 }] }

theorem sMint_reachable : Reachable sMint := Reachable.step Reachable.init _

theorem sOff_reachable : Reachable sOff := Reachable.step sMint_reachable _

theorem sBuy1_reachable : Reachable sBuy1 := Reachable.step sMint_reachable _

theorem sMint_lookup : mapLookup sMint.nfts 1 = some nftM := rfl

theorem sBuy1_lookup : mapLookup sBuy1.nfts 1 = some nftB := rfl

theorem sTracks_lookup : mapLookup sTracks.projects 1 = some pTwo := rfl

/-- The royalty never exceeds the price while the percentage is at most 100. -/
theorem royaltyAmount_le (nft : NFTMetadata) (h : nft.royalty_percentage ≤ 100) :
    royaltyAmount nft ≤ nft.price := by
  unfold royaltyAmount
  split
  · calc nft.price * nft.royalty_percentage / 100
        ≤ nft.price * 100 / 100 := Nat.div_le_div_right (Nat.mul_le_mul_left _ h)
      _ = nft.price := Nat.mul_div_cancel nft.price (by norm_num)
  · exact Nat.zero_le _

/-! ### Claim theorems -/

/-- C1: for every successful `buy` the amounts conserve the price:
`sellerAmount + royaltyAmount = price`, where the royalty is
`price * royalty_percentage / 100` (floor division) when the creator differs
from the current owner (the seller) at the time of sale, and 0 when the
creator is the current owner. -/
theorem buy_royalty_conservation (s : CanisterState) (hs : Reachable s)
    (nft_id : Nat) (buyer : String) (ts : Nat) (nft : NFTMetadata)
    (hnft : mapLookup s.nfts nft_id = some nft)
    (msg : String) (_hok : (buy_nft s nft_id buyer ts).1 = .Ok msg) :
    sellerAmount nft + royaltyAmount nft = nft.price ∧
    (nft.creator ≠ nft.current_owner →
      royaltyAmount nft = nft.price * nft.royalty_percentage / 100) ∧
    (nft.creator = nft.current_owner → royaltyAmount nft = 0) := by
  have hpct : nft.royalty_percentage = 10 :=
    ((reachable_stateInv hs).2.2.2 nft_id nft hnft).2.1
  refine ⟨Nat.sub_add_cancel (royaltyAmount_le nft (by omega)), ?_, ?_⟩
  · intro hne
    simp [royaltyAmount, hne]
  · intro heq
    simp [royaltyAmount, heq]

theorem buy_royalty_conservation_witness :
    sellerAmount nftB + royaltyAmount nftB = nftB.price ∧
    (nftB.creator ≠ nftB.current_owner →
      royaltyAmount nftB = nftB.price * nftB.royalty_percentage / 100) ∧
    (nftB.creator = nftB.current_owner → royaltyAmount nftB = 0) :=
  buy_royalty_conservation sBuy1 sBuy1_reachable 1 "carol" 9 nftB rfl
    "NFT purchased successfully. Seller receives: 90 ICP, Creator royalty: 10 ICP"
    rfl

/-- C2: in every reachable state (hence after every operation), every stored
NFT has a non-empty `sale_history` whose first entry is the mint transaction
(kind `"mint"`, from `"system"`, price 0) and whose most recent entry's `to`
field is the NFT's `current_owner`. -/
theorem nft_history_invariant (s : CanisterState) (hs : Reachable s)
    (id : Nat) (nft : NFTMetadata) (h : mapLookup s.nfts id = some nft) :
    nft.sale_history ≠ [] ∧
    (∀ t, nft.sale_history.head? = some t →
      t.transaction_type = "mint" ∧ t.from_ = "system" ∧ t.price = 0) ∧
    (∀ t, nft.sale_history.getLast? = some t → nft.current_owner = t.to_) := by
  obtain ⟨-, hne, hhead, hlast⟩ := ((reachable_stateInv hs).2.2.2 id nft h).2
  exact ⟨hne, fun t ht => ⟨(hhead t ht).2.2, (hhead t ht).1, (hhead t ht).2.1⟩, hlast⟩

theorem nft_history_invariant_witness :
    nftB.sale_history ≠ [] ∧
    (∀ t, nftB.sale_history.head? = some t →
      t.transaction_type = "mint" ∧ t.from_ = "system" ∧ t.price = 0) ∧
    (∀ t, nftB.sale_history.getLast? = some t → nftB.current_owner = t.to_) :=
  nft_history_invariant sBuy1 sBuy1_reachable 1 nftB rfl

/-- C3: `buy` fails with `NotFound` exactly on unknown ids, with `NotForSale`
exactly when the NFT exists but is not for sale, with `SelfPurchase` exactly
when it exists, is for sale, and the buyer is the current owner; it succeeds
otherwise, and every error leaves the entire state unchanged. -/
theorem buy_error_cases (s : CanisterState) (nft_id : Nat) (buyer : String)
    (ts : Nat) :
    (mapLookup s.nfts nft_id = none →
      buy_nft s nft_id buyer ts = (.Err "NFT not found", s)) ∧
    (∀ nft, mapLookup s.nfts nft_id = some nft → nft.is_for_sale = false →
      buy_nft s nft_id buyer ts = (.Err "NFT is not for sale", s)) ∧
    (∀ nft, mapLookup s.nfts nft_id = some nft → nft.is_for_sale = true →
      nft.current_owner = buyer →
      buy_nft s nft_id buyer ts = (.Err "Cannot buy your own NFT", s)) ∧
    (∀ nft, mapLookup s.nfts nft_id = some nft → nft.is_for_sale = true →
      nft.current_owner ≠ buyer →
      ∃ msg s', buy_nft s nft_id buyer ts = (.Ok msg, s')) ∧
    (∀ e s', buy_nft s nft_id buyer ts = (.Err e, s') → s' = s) := by
  refine ⟨?_, ?_, ?_, ?_, ?_⟩
  · intro h
    simp only [buy_nft, h]
  · intro nft h hsale
    simp only [buy_nft, h, if_pos hsale]
  · intro nft h hsale hown
    have hns : ¬ nft.is_for_sale = false := by simp [hsale]
    simp only [buy_nft, h, if_neg hns, if_pos hown]
  · intro nft h hsale hown
    have hns : ¬ nft.is_for_sale = false := by simp [hsale]
    simp only [buy_nft, h, if_neg hns, if_neg hown]
    exact ⟨_, _, rfl⟩
  · intro e s' he
    cases h : mapLookup s.nfts nft_id with
    | none =>
        simp only [buy_nft, h] at he
        exact (congrArg Prod.snd he).symm
    | some nft =>
        by_cases hsale : nft.is_for_sale = false
        · simp only [buy_nft, h, if_pos hsale] at he
          exact (congrArg Prod.snd he).symm
        · by_cases hown : nft.current_owner = buyer
          · simp only [buy_nft, h, if_neg hsale, if_pos hown] at he
            exact (congrArg Prod.snd he).symm
          · simp only [buy_nft, h, if_neg hsale, if_neg hown] at he
            cases he

theorem buy_error_cases_witness :
    buy_nft sOff 1 "bob" 9 = (.Err "NFT is not for sale", sOff) :=
  (buy_error_cases sOff 1 "bob" 9).2.1 { nftM with is_for_sale := false } rfl rfl

/-- C4 counterexample: one single `mint` already puts a transaction of kind
`"mint"` into the global `TRANSACTIONS` log, so the log does not stay free of
mint transactions. -/
theorem mint_in_global_log :
    Reachable sMint ∧
    sMint.transactions.any (fun t => t.transaction_type == "mint") = true :=
  ⟨sMint_reachable, rfl⟩

/-- C4 amended: `mint` records the mint transaction both as the sole entry of
the new NFT's `sale_history` and as a new entry appended to the global
Transaction log. -/
theorem mint_transaction_both_logs (s : CanisterState)
    (nm d url cr : String) (pid pr : Nat) (cat : String) (ts : Nat) :
    (mint_nft s nm d url cr pid pr cat ts).2.transactions =
      s.transactions ++ [{ from_ := "system", to_ := cr, price := 0,
                           timestamp := ts, transaction_type := "mint" }] ∧
    (mapLookup (mint_nft s nm d url cr pid pr cat ts).2.nfts
        (mint_nft s nm d url cr pid pr cat ts).1).map
      (fun n => n.sale_history) =
      some [{ from_ := "system", to_ := cr, price := 0, timestamp := ts,
              transaction_type := "mint" }] := by
  constructor
  · rfl
  · show (mapLookup (mapInsert s.nfts s.nextNftId _) s.nextNftId).map _ = _
    rw [mapLookup_mapInsert, if_pos rfl]
    rfl

/-- C5 counterexample: for the NFT minted with `price = 100` and royalty 10,
the very first `buy` by the non-creator `"bob"` has the creator as seller, so
the code pays `royaltyAmount = 0` and `sellerAmount = 100`, not the claimed
10 and 90. -/
theorem first_buy_pays_no_royalty :
    nftM.price = 100 ∧ nftM.royalty_percentage = 10 ∧
    "bob" ≠ nftM.creator ∧
    (buy_nft sMint 1 "bob" 7).1 =
      .Ok "NFT purchased successfully. Seller receives: 100 ICP, Creator royalty: 0 ICP" ∧
    royaltyAmount nftM = 0 ∧ sellerAmount nftM = 100 ∧
    ¬(royaltyAmount nftM = 10 ∧ sellerAmount nftM = 90) ∧
    (buy_nft sMint 1 "bob" 7).2.royaltyPayments = [] := by
  refine ⟨rfl, rfl, by decide, rfl, rfl, rfl, by decide, rfl⟩

/-- C5 amended: after a successful `buy` the NFT's `current_owner` is the
buyer and every other field except `sale_history` is unchanged; the seller
receives `sellerAmount` and the creator `royaltyAmount` as in C1 — in
particular, buying the freshly minted `price = 100` NFT from its creator
yields `royaltyAmount = 0` and `sellerAmount = 100` (seller is the creator),
while a second buy from a non-creator owner yields 10 and 90. -/
theorem buy_success_frame (s : CanisterState) (nft_id : Nat) (buyer : String)
    (ts : Nat) (nft : NFTMetadata) (h : mapLookup s.nfts nft_id = some nft)
    (hsale : nft.is_for_sale = true) (hbuyer : nft.current_owner ≠ buyer) :
    mapLookup (buy_nft s nft_id buyer ts).2.nfts nft_id =
      some { nft with current_owner := buyer,
                      sale_history := nft.sale_history ++
                        [saleTransaction nft buyer ts] } ∧
    (buy_nft s nft_id buyer ts).1 = .Ok (buyMessage nft) := by
  have hns : ¬ nft.is_for_sale = false := by simp [hsale]
  constructor
  · show mapLookup ((buy_nft s nft_id buyer ts).2).nfts nft_id = _
    simp only [buy_nft, h, if_neg hns, if_neg hbuyer]
    rw [mapLookup_mapModify, if_pos rfl, h]
    rfl
  · simp only [buy_nft, h, if_neg hns, if_neg hbuyer]

theorem buy_success_frame_witness :
    mapLookup (buy_nft sMint 1 "bob" 7).2.nfts 1 =
      some { nftM with current_owner := "bob",
                       sale_history := nftM.sale_history ++
                         [saleTransaction nftM "bob" 7] } ∧
    (buy_nft sMint 1 "bob" 7).1 = .Ok (buyMessage nftM) ∧
    royaltyAmount nftM = 0 ∧ sellerAmount nftM = 100 ∧
    royaltyAmount nftB = 10 ∧ sellerAmount nftB = 90 ∧
    nftB.is_for_sale = true ∧
    (mapLookup (buy_nft sBuy1 1 "carol" 9).2.nfts 1).map
      (fun n => (n.current_owner, n.is_for_sale, n.price)) =
      some ("carol", true, 100) :=
  ⟨(buy_success_frame sMint 1 "bob" 7 nftM rfl rfl (by decide)).1,
   (buy_success_frame sMint 1 "bob" 7 nftM rfl rfl (by decide)).2,
   rfl, rfl, rfl, rfl, rfl, rfl⟩

/-- C6: a successful `get` increments exactly that NFT's `view_count` by 1
and changes nothing else (same record otherwise, other keys and every other
state component untouched); `get` on an unknown id returns `none` and leaves
the state unchanged; `list` never changes the state. -/
theorem get_nft_view_count_spec (s : CanisterState) (id : Nat) :
    (∀ nft, mapLookup s.nfts id = some nft →
      (get_nft s id).1 = some { nft with view_count := nft.view_count + 1 } ∧
      mapLookup (get_nft s id).2.nfts id =
        some { nft with view_count := nft.view_count + 1 } ∧
      (∀ k, k ≠ id → mapLookup (get_nft s id).2.nfts k = mapLookup s.nfts k) ∧
      (get_nft s id).2.projects = s.projects ∧
      (get_nft s id).2.transactions = s.transactions ∧
      (get_nft s id).2.royaltyPayments = s.royaltyPayments ∧
      (get_nft s id).2.nextId = s.nextId ∧
      (get_nft s id).2.nextNftId = s.nextNftId) ∧
    (mapLookup s.nfts id = none → get_nft s id = (none, s)) ∧
    (list_nfts s).2 = s := by
  refine ⟨?_, ?_, rfl⟩
  · intro nft h
    have h2 : (get_nft s id).2 = { s with nfts := mapModify s.nfts id incView } := by
      simp only [get_nft, h]
    have h1 : (get_nft s id).1 = some (incView nft) := by
      simp only [get_nft, h]
    refine ⟨h1, ?_, ?_, by rw [h2], by rw [h2], by rw [h2], by rw [h2], by rw [h2]⟩
    · rw [h2]
      show mapLookup (mapModify s.nfts id incView) id = _
      rw [mapLookup_mapModify, if_pos rfl, h]
      rfl
    · intro k hk
      rw [h2]
      show mapLookup (mapModify s.nfts id incView) k = _
      rw [mapLookup_mapModify, if_neg (fun e => hk e.symm)]
  · intro h
    simp only [get_nft, h]

theorem get_nft_view_count_witness :
    (get_nft sMint 1).1 = some { nftM with view_count := nftM.view_count + 1 } ∧
    mapLookup (get_nft sMint 1).2.nfts 1 =
      some { nftM with view_count := nftM.view_count + 1 } ∧
    (list_nfts sMint).2 = sMint :=
  ⟨((get_nft_view_count_spec sMint 1).1 nftM rfl).1,
   ((get_nft_view_count_spec sMint 1).1 nftM rfl).2.1,
   (get_nft_view_count_spec sMint 1).2.2⟩

/-- Both counters are monotone under every operation. -/
theorem step_counters_mono (s : CanisterState) (op : Op) :
    s.nextId ≤ (step s op).nextId ∧ s.nextNftId ≤ (step s op).nextNftId := by
  cases op with
  | createProject t d o => exact ⟨Nat.le_succ _, le_refl _⟩
  | addTrack pid nm ih ub ts =>
      cases hl : mapLookup s.projects pid <;>
        simp only [step, add_track, hl] <;> exact ⟨le_refl _, le_refl _⟩
  | addContributor pid c =>
      cases hl : mapLookup s.projects pid <;>
        simp only [step, add_contributor, hl] <;> exact ⟨le_refl _, le_refl _⟩
  | removeTrack pid tid =>
      cases hl : mapLookup s.projects pid <;>
        simp only [step, remove_track, hl] <;> exact ⟨le_refl _, le_refl _⟩
  | mintNft nm d url cr pid pr cat ts => exact ⟨le_refl _, Nat.le_succ _⟩
  | listNfts => exact ⟨le_refl _, le_refl _⟩
  | getNft id =>
      cases hl : mapLookup s.nfts id <;>
        simp only [step, get_nft, hl] <;> exact ⟨le_refl _, le_refl _⟩
  | buyNft id b ts =>
      cases hl : mapLookup s.nfts id with
      | none => simp only [step, buy_nft, hl]; exact ⟨le_refl _, le_refl _⟩
      | some nft =>
          simp only [step, buy_nft, hl]
          split_ifs <;> exact ⟨le_refl _, le_refl _⟩
  | updatePrice id p o =>
      cases hl : mapLookup s.nfts id with
      | none => simp only [step, update_nft_price, hl]; exact ⟨le_refl _, le_refl _⟩
      | some nft =>
          simp only [step, update_nft_price, hl]
          split_ifs <;> exact ⟨le_refl _, le_refl _⟩
  | setForSale id f o =>
      cases hl : mapLookup s.nfts id with
      | none => simp only [step, set_nft_for_sale, hl]; exact ⟨le_refl _, le_refl _⟩
      | some nft =>
          simp only [step, set_nft_for_sale, hl]
          split_ifs <;> exact ⟨le_refl _, le_refl _⟩

/-- C7: both ID sequences start at 1 and are independent: `create_project`
returns the current project counter, bumps only it, and leaves the NFT store
alone; `mint_nft` symmetrically; no operation ever decreases a counter; and
in every reachable state every stored id was issued by its own counter
(`1 ≤ id < counter`), so an issued id is never issued again — removals never
reset a counter. -/
theorem id_allocator_spec (s : CanisterState) (hs : Reachable s) :
    initState.nextId = 1 ∧ initState.nextNftId = 1 ∧
    (∀ t d o, (create_project s t d o).1 = s.nextId ∧
      (create_project s t d o).2.nextId = s.nextId + 1 ∧
      (create_project s t d o).2.nextNftId = s.nextNftId ∧
      (create_project s t d o).2.nfts = s.nfts) ∧
    (∀ nm d url cr pid pr cat ts,
      (mint_nft s nm d url cr pid pr cat ts).1 = s.nextNftId ∧
      (mint_nft s nm d url cr pid pr cat ts).2.nextNftId = s.nextNftId + 1 ∧
      (mint_nft s nm d url cr pid pr cat ts).2.nextId = s.nextId ∧
      (mint_nft s nm d url cr pid pr cat ts).2.projects = s.projects) ∧
    (∀ op, s.nextId ≤ (step s op).nextId ∧
      s.nextNftId ≤ (step s op).nextNftId) ∧
    (∀ k p, mapLookup s.projects k = some p → 1 ≤ k ∧ k < s.nextId) ∧
    (∀ k n, mapLookup s.nfts k = some n → 1 ≤ k ∧ k < s.nextNftId) :=
  ⟨rfl, rfl,
   fun _ _ _ => ⟨rfl, rfl, rfl, rfl⟩,
   fun _ _ _ _ _ _ _ _ => ⟨rfl, rfl, rfl, rfl⟩,
   step_counters_mono s,
   fun k p h => (reachable_stateInv hs).2.2.1 k p h,
   fun k n h => ((reachable_stateInv hs).2.2.2 k n h).1⟩

theorem id_allocator_spec_witness :
    (create_project sMint "t" "d" "o").1 = sMint.nextId ∧
    (mint_nft sMint "n" "d" "u" "c" 1 5 "cat" 9).1 = sMint.nextNftId ∧
    sMint.nextNftId = 2 :=
  ⟨((id_allocator_spec sMint sMint_reachable).2.2.1 "t" "d" "o").1,
   ((id_allocator_spec sMint sMint_reachable).2.2.2.1 "n" "d" "u" "c" 1 5 "cat" 9).1,
   rfl⟩

/-- C8: `remove_track` returns `false` exactly on an unknown project (and
then changes nothing); otherwise it returns `true` — even when nothing
matched — keeps the non-matching tracks in order (a filter), removes every
track whose id equals `track_id`, and touches no other project; and
`add_track` stores the caller-supplied timestamp as the new track's id, so
tracks sharing a timestamp share an id and fall together. -/
theorem remove_track_spec (s : CanisterState) (pid tid : Nat) :
    ((remove_track s pid tid).1 = false ↔ mapLookup s.projects pid = none) ∧
    ((remove_track s pid tid).1 = false → (remove_track s pid tid).2 = s) ∧
    (∀ p, mapLookup s.projects pid = some p →
      (remove_track s pid tid).1 = true ∧
      mapLookup (remove_track s pid tid).2.projects pid =
        some { p with tracks := p.tracks.filter (fun t => t.id ≠ tid) } ∧
      (∀ k, k ≠ pid → mapLookup (remove_track s pid tid).2.projects k =
        mapLookup s.projects k) ∧
      (∀ p', mapLookup (remove_track s pid tid).2.projects pid = some p' →
        ∀ t ∈ p'.tracks, t.id ≠ tid)) ∧
    (∀ nm ih ub ts p, mapLookup s.projects pid = some p →
      (add_track s pid nm ih ub ts).1 = true ∧
      mapLookup (add_track s pid nm ih ub ts).2.projects pid =
        some { p with tracks := p.tracks ++
          [{ id := ts, name := nm, ipfs_hash := ih, uploaded_by := ub,
             timestamp := ts }] }) := by
  refine ⟨?_, ?_, ?_, ?_⟩
  · cases hl : mapLookup s.projects pid <;> simp [remove_track, hl]
  · intro hf
    cases hl : mapLookup s.projects pid with
    | none => simp only [remove_track, hl]
    | some p => simp [remove_track, hl] at hf
  · intro p hp
    have hmod : mapLookup (remove_track s pid tid).2.projects pid =
        some { p with tracks := p.tracks.filter (fun t => t.id ≠ tid) } := by
      simp only [remove_track, hp]
      rw [mapLookup_mapModify, if_pos rfl, hp]
      rfl
    refine ⟨by simp only [remove_track, hp], hmod, ?_, ?_⟩
    · intro k hk
      simp only [remove_track, hp]
      rw [mapLookup_mapModify, if_neg (fun e => hk e.symm)]
    · intro p' hp' t ht
      rw [hmod] at hp'
      cases hp'
      have := (List.mem_filter.mp ht).2
      exact of_decide_eq_true this
  · intro nm ih ub ts p hp
    refine ⟨by simp only [add_track, hp], ?_⟩
    simp only [add_track, hp]
    rw [mapLookup_mapModify, if_pos rfl, hp]
    rfl

theorem remove_track_spec_witness :
    (remove_track sTracks 1 42).1 = true ∧
    mapLookup (remove_track sTracks 1 42).2.projects 1 =
      some { pTwo with tracks := pTwo.tracks.filter (fun t => t.id ≠ 42) } ∧
    pTwo.tracks.length = 2 ∧
    pTwo.tracks.filter (fun t => t.id ≠ 42) = [] :=
  ⟨((remove_track_spec sTracks 1 42).2.2.1 pTwo rfl).1,
   ((remove_track_spec sTracks 1 42).2.2.1 pTwo rfl).2.1, rfl, rfl⟩

/-- C9: `update_nft_price` and `set_nft_for_sale` fail with `NotFound` on an
unknown id and with `NotOwner` when the requester is not the current owner,
returning the state unchanged in every error case; when the requester is the
owner they set the price (respectively the flag) and succeed. -/
theorem owner_guarded_updates (s : CanisterState) (id np : Nat) (fl : Bool)
    (req : String) :
    (mapLookup s.nfts id = none →
      update_nft_price s id np req = (.Err "NFT not found", s) ∧
      set_nft_for_sale s id fl req = (.Err "NFT not found", s)) ∧
    (∀ nft, mapLookup s.nfts id = some nft → nft.current_owner ≠ req →
      update_nft_price s id np req =
        (.Err "Only the owner can update the price", s) ∧
      set_nft_for_sale s id fl req =
        (.Err "Only the owner can change sale status", s)) ∧
    (∀ nft, mapLookup s.nfts id = some nft → nft.current_owner = req →
      (update_nft_price s id np req).1 =
        .Ok ("Price updated from " ++ toString nft.price ++ " to "
             ++ toString np ++ " ICP") ∧
      mapLookup (update_nft_price s id np req).2.nfts id =
        some { nft with price := np } ∧
      (set_nft_for_sale s id fl req).1 =
        .Ok (if fl then "NFT is now for sale" else "NFT removed from sale") ∧
      mapLookup (set_nft_for_sale s id fl req).2.nfts id =
        some { nft with is_for_sale := fl }) := by
  refine ⟨?_, ?_, ?_⟩
  · intro h
    exact ⟨by simp only [update_nft_price, h], by simp only [set_nft_for_sale, h]⟩
  · intro nft h hno
    exact ⟨by simp only [update_nft_price, h, if_pos hno],
           by simp only [set_nft_for_sale, h, if_pos hno]⟩
  · intro nft h hyes
    have hno : ¬ nft.current_owner ≠ req := fun hc => hc hyes
    refine ⟨by simp only [update_nft_price, h, if_neg hno], ?_,
            by simp only [set_nft_for_sale, h, if_neg hno], ?_⟩
    · simp only [update_nft_price, h, if_neg hno]
      rw [mapLookup_mapModify, if_pos rfl, h]
      rfl
    · simp only [set_nft_for_sale, h, if_neg hno]
      rw [mapLookup_mapModify, if_pos rfl, h]
      rfl

theorem owner_guarded_updates_witness :
    update_nft_price sMint 1 77 "mallory" =
      (.Err "Only the owner can update the price", sMint) ∧
    set_nft_for_sale sMint 1 false "mallory" =
      (.Err "Only the owner can change sale status", sMint) :=
  (owner_guarded_updates sMint 1 77 false "mallory").2.1 nftM rfl (by decide)

/-- C10: whenever `add_track`, `add_contributor` or `remove_track` returns
`false`, the returned state is exactly the input state: every project, every
NFT, both logs and both counters are untouched. -/
theorem bool_mutators_false_frame (s : CanisterState) (pid tid ts : Nat)
    (nm ih ub c : String) :
    ((add_track s pid nm ih ub ts).1 = false →
      (add_track s pid nm ih ub ts).2 = s) ∧
    ((add_contributor s pid c).1 = false → (add_contributor s pid c).2 = s) ∧
    ((remove_track s pid tid).1 = false → (remove_track s pid tid).2 = s) := by
  refine ⟨?_, ?_, ?_⟩
  · intro hf
    cases hl : mapLookup s.projects pid with
    | none => simp only [add_track, hl]
    | some p => simp [add_track, hl] at hf
  · intro hf
    cases hl : mapLookup s.projects pid with
    | none => simp only [add_contributor, hl]
    | some p => simp [add_contributor, hl] at hf
  · intro hf
    cases hl : mapLookup s.projects pid with
    | none => simp only [remove_track, hl]
    | some p => simp [remove_track, hl] at hf

theorem bool_mutators_false_frame_witness :
    (add_track initState 99 "n" "h" "u" 1).2 = initState ∧
    (add_contributor initState 99 "c").2 = initState ∧
    (remove_track initState 99 7).2 = initState :=
  ⟨(bool_mutators_false_frame initState 99 7 1 "n" "h" "u" "c").1 rfl,
   (bool_mutators_false_frame initState 99 7 1 "n" "h" "u" "c").2.1 rfl,
   (bool_mutators_false_frame initState 99 7 1 "n" "h" "u" "c").2.2 rfl⟩

end Dexilo
